import Mathlib

/-!
Shallow embedding of `src/whisperx/app/transcription_workers.py`.

The file models the two background workers (`ModelLoaderWorker`,
`TranscriptionWorker`) as pure functions from an explicit environment
(CUDA availability, injected faults, the Bridge's callback behaviour and
outcome) to the trace of actions the worker performs, including every
event it emits on its `WorkerSignals` channel.  Machine time is modelled
as a rational number (the value of `time.time()` at a callback).
-/

/-- The events a worker emits on its `WorkerSignals` channel
(`progress_updated`, `status_updated`, `finished`, `error`,
`transcription_completed`, `models_loaded`).  `μ` is the opaque model-set
payload, `ρ` the opaque transcription-result payload. -/
inductive Event (μ ρ : Type) where
  | progressUpdated (percent : Int)
  | statusUpdated (text : String)
  | finished
  | error (message : String)
  | transcriptionCompleted (result : ρ)
  | modelsLoaded (models : μ)
deriving DecidableEq, Repr

/-- The observable steps of a worker's `run()`: the lazy imports, the
Bridge construction, the CUDA device-affinity work, the audio-file
precondition check, the Bridge calls, and every signal emission. -/
inductive Step (μ ρ : Type) where
  | importTorch
  | constructBridge
  | setNumThreads
  | enterDeviceContext (idx : Int)
  | cudaSynchronize
  | checkAudioFile
  | callLoadModels
  | callTranscribe
  | emit (e : Event μ ρ)
deriving DecidableEq, Repr

/-- One callback invocation performed by the Bridge during
`load_models` / `transcribe_audio`: either `progress_callback(p)` at
wall-clock time `now` (the value `time.time()` returns inside the
worker's handler) or `status_callback(s)`. -/
inductive CbEvent where
  | progress (p : Int) (now : ℚ)
  | status (s : String)
deriving DecidableEq, Repr

/-- The fields of `TranscriptionConfig` this core reads: `device`,
`device_index` and `audio_file`. -/
structure TranscriptionConfig where
  device : String
  device_index : Int
  audio_file : Option String
deriving DecidableEq, Repr

/-- Python truthiness of `self.config.audio_file` negated:
`not self.config.audio_file` holds when the field is `None` or `""`. -/
def audioFalsy : Option String → Bool
  | none => true
  | some s => s.isEmpty

/-- `device_id = self.config.device_index if self.config.device == 'cuda' else 0`. -/
def deviceId (cfg : TranscriptionConfig) : Int :=
  if cfg.device = "cuda" then cfg.device_index else 0

/-- The environment a single `run()` executes in: whether
`torch.cuda.is_available()`, faults injected at the lazy import, at
Bridge construction, or during CUDA context setup (each as the message
`str(e)` of the raised exception), the callbacks the Bridge fires during
its call, and the Bridge call's outcome (`α` on success, the exception
message on fault). -/
structure WorkerEnv (α : Type) where
  cudaAvailable : Bool
  importFault : Option String
  bridgeCtorFault : Option String
  deviceFault : Option String
  bridgeCbs : List CbEvent
  bridgeOutcome : Except String α
deriving Repr

/-- The throttle state of `TranscriptionWorker`:
`_last_progress_time` (init `0`) and `_last_progress_value` (init `-1`). -/
structure ThrottleState where
  lastProgressTime : ℚ
  lastProgressValue : Int
deriving DecidableEq, Repr

/-- The initial throttle state set in `TranscriptionWorker.__init__`. -/
def throttleInit : ThrottleState := ⟨0, -1⟩

/-- `TranscriptionWorker._on_progress_update`: emit `progress` and update
both state fields when `progress - _last_progress_value >= 2` or
`now - _last_progress_time >= 2`; otherwise drop it and leave the state
unchanged.  Returns the new state and the emitted value, if any. -/
def onProgressUpdate (st : ThrottleState) (progress : Int) (now : ℚ) :
    ThrottleState × Option Int :=
  if 2 ≤ progress - st.lastProgressValue ∨ 2 ≤ now - st.lastProgressTime then
    (⟨now, progress⟩, some progress)
  else
    (st, none)

/-- Runs the Bridge's callback sequence through
`TranscriptionWorker._on_progress_update` / `_on_status_update`,
threading the throttle state; returns the final state and the events
emitted on the channel. -/
def throttleRun (st : ThrottleState) : List CbEvent → ThrottleState × List (Event μ ρ)
  | [] => (st, [])
  | .progress p t :: rest =>
      let r := onProgressUpdate st p t
      let rec' := throttleRun r.1 rest
      (rec'.1, (r.2.map Event.progressUpdated).toList ++ rec'.2)
  | .status s :: rest =>
      let rec' := throttleRun st rest
      (rec'.1, Event.statusUpdated s :: rec'.2)

/-- `ModelLoaderWorker._on_progress_update` / `_on_status_update` forward
each callback verbatim to the channel. -/
def loaderCbEvents : List CbEvent → List (Event μ ρ)
  | [] => []
  | .progress p _ :: rest => Event.progressUpdated p :: loaderCbEvents rest
  | .status s :: rest => Event.statusUpdated s :: loaderCbEvents rest

/-- The tail of `ModelLoaderWorker.run` after CUDA setup: status and
progress emissions, the `load_models` call with verbatim callback
forwarding, then either the success emissions or the caught fault. -/
def loaderBody (env : WorkerEnv μ) (lead : List (Step μ ρ)) : List (Step μ ρ) :=
  lead ++
    [Step.emit (Event.statusUpdated "Loading model"),
     Step.emit (Event.progressUpdated 0),
     Step.callLoadModels] ++
    (loaderCbEvents env.bridgeCbs).map Step.emit ++
    (match env.bridgeOutcome with
     | .error m => [Step.emit (Event.error m)]
     | .ok models =>
         [Step.emit (Event.progressUpdated 100),
          Step.emit (Event.statusUpdated "Models loaded successfully"),
          Step.emit (Event.modelsLoaded models),
          Step.emit Event.finished])

/-- `ModelLoaderWorker.run`: lazy imports, Bridge construction, CUDA
device-affinity setup when available, then the load body; any fault is
caught at the boundary and emitted as `error(str(e))`. -/
def modelLoaderRun (env : WorkerEnv μ) (cfg : TranscriptionConfig) : List (Step μ ρ) :=
  match env.importFault with
  | some m => [Step.emit (Event.error m)]
  | none =>
    match env.bridgeCtorFault with
    | some m => [Step.importTorch, Step.emit (Event.error m)]
    | none =>
      if env.cudaAvailable then
        match env.deviceFault with
        | some m =>
            [Step.importTorch, Step.constructBridge, Step.setNumThreads,
             Step.emit (Event.error m)]
        | none =>
            loaderBody env
              [Step.importTorch, Step.constructBridge, Step.setNumThreads,
               Step.enterDeviceContext (deviceId cfg), Step.cudaSynchronize]
      else
        loaderBody env [Step.importTorch, Step.constructBridge]

/-- The tail of `TranscriptionWorker.run` after CUDA setup: the
audio-file precondition check, status and progress emissions, the
`transcribe_audio` call with throttled progress forwarding, then either
the success emissions or the caught fault.  Also returns the final
throttle state. -/
def transcriptionBody (env : WorkerEnv ρ) (cfg : TranscriptionConfig)
    (lead : List (Step μ ρ)) : List (Step μ ρ) × ThrottleState :=
  if audioFalsy cfg.audio_file then
    (lead ++ [Step.checkAudioFile,
              Step.emit (Event.error "No audio file specified!")], throttleInit)
  else
    let r := throttleRun throttleInit env.bridgeCbs
    (lead ++
       [Step.checkAudioFile,
        Step.emit (Event.statusUpdated "Starting transcription..."),
        Step.emit (Event.progressUpdated 0),
        Step.callTranscribe] ++
       r.2.map Step.emit ++
       (match env.bridgeOutcome with
        | .error m => [Step.emit (Event.error m)]
        | .ok res =>
            [Step.emit (Event.progressUpdated 100),
             Step.emit (Event.statusUpdated "Transcription completed"),
             Step.emit (Event.transcriptionCompleted res),
             Step.emit Event.finished]),
     r.1)

/-- `TranscriptionWorker.run`: lazy imports, Bridge construction, CUDA
device-affinity setup when available, then the transcription body; any
fault is caught at the boundary and emitted as `error(str(e))`.  Returns
the action trace and the final throttle state. -/
def transcriptionRun (env : WorkerEnv ρ) (cfg : TranscriptionConfig) :
    List (Step μ ρ) × ThrottleState :=
  match env.importFault with
  | some m => ([Step.emit (Event.error m)], throttleInit)
  | none =>
    match env.bridgeCtorFault with
    | some m => ([Step.importTorch, Step.emit (Event.error m)], throttleInit)
    | none =>
      if env.cudaAvailable then
        match env.deviceFault with
        | some m =>
            ([Step.importTorch, Step.constructBridge, Step.setNumThreads,
              Step.emit (Event.error m)], throttleInit)
        | none =>
            transcriptionBody env cfg
              [Step.importTorch, Step.constructBridge, Step.setNumThreads,
               Step.enterDeviceContext (deviceId cfg), Step.cudaSynchronize]
      else
        transcriptionBody env cfg [Step.importTorch, Step.constructBridge]

/-- The events a trace emits, in order. -/
def eventsOf (tr : List (Step μ ρ)) : List (Event μ ρ) :=
  tr.filterMap fun a => match a with
    | .emit e => some e
    | _ => none

/-- The percentages of the `progressUpdated` events of a list, in order. -/
def progressValues (evs : List (Event μ ρ)) : List Int :=
  evs.filterMap fun e => match e with
    | .progressUpdated p => some p
    | _ => none

/-- The messages of the `error` events of a list, in order. -/
def errorsOf (evs : List (Event μ ρ)) : List String :=
  evs.filterMap fun e => match e with
    | .error m => some m
    | _ => none

/-- Terminal events: `finished` and `error`. -/
def Event.isTerminal : Event μ ρ → Bool
  | .finished => true
  | .error _ => true
  | _ => false

/-- The CUDA device-affinity actions (thread pinning, device context,
synchronization). -/
def Step.isDeviceWork : Step μ ρ → Bool
  | .setNumThreads => true
  | .enterDeviceContext _ => true
  | .cudaSynchronize => true
  | _ => false

/-- Whether an action emits an `error` event. -/
def Step.isErrorEmit : Step μ ρ → Bool
  | .emit (.error _) => true
  | _ => false

/-- No fault on the prologue shared by both workers: imports, Bridge
construction and (when CUDA is available) device setup all succeed. -/
def prologueOk (env : WorkerEnv α) : Prop :=
  env.importFault = none ∧ env.bridgeCtorFault = none ∧
    (env.cudaAvailable = true → env.deviceFault = none)

instance (env : WorkerEnv α) : Decidable (prologueOk env) := by
  unfold prologueOk; infer_instance

/-- A fault-free `ModelLoaderWorker.run`: prologue and `load_models`
both succeed. -/
def loaderOk (env : WorkerEnv μ) : Prop :=
  prologueOk env ∧ ∃ models, env.bridgeOutcome = .ok models

/-- A fault-free `TranscriptionWorker.run`: prologue succeeds, the
audio file is set (truthy) and `transcribe_audio` succeeds. -/
def transcribeOk (env : WorkerEnv ρ) (cfg : TranscriptionConfig) : Prop :=
  prologueOk env ∧ audioFalsy cfg.audio_file = false ∧
    ∃ res, env.bridgeOutcome = .ok res

/-- The first fault `ModelLoaderWorker.run` encounters, if any, in
source order: import, Bridge construction, device setup (only when CUDA
is available), then the `load_models` call. -/
def loaderFirstFault (env : WorkerEnv μ) : Option String :=
  match env.importFault with
  | some m => some m
  | none =>
    match env.bridgeCtorFault with
    | some m => some m
    | none =>
      match (if env.cudaAvailable then env.deviceFault else none) with
      | some m => some m
      | none =>
        match env.bridgeOutcome with
        | .error m => some m
        | .ok _ => none

/-- The first fault `TranscriptionWorker.run` encounters, if any, in
source order: import, Bridge construction, device setup (only when CUDA
is available), the audio-file precondition, then the `transcribe_audio`
call. -/
def transcribeFirstFault (env : WorkerEnv ρ) (cfg : TranscriptionConfig) : Option String :=
  match env.importFault with
  | some m => some m
  | none =>
    match env.bridgeCtorFault with
    | some m => some m
    | none =>
      match (if env.cudaAvailable then env.deviceFault else none) with
      | some m => some m
      | none =>
        if audioFalsy cfg.audio_file then some "No audio file specified!"
        else
          match env.bridgeOutcome with
          | .error m => some m
          | .ok _ => none

/-- Whether a step is the Bridge construction. -/
def Step.isBridgeCtor : Step μ ρ → Bool
  | .constructBridge => true
  | _ => false

/-- The raw progress percentages the Bridge feeds to the worker's
progress callback, in order. -/
def rawProgress : List CbEvent → List Int
  | [] => []
  | .progress p _ :: rest => p :: rawProgress rest
  | .status _ :: rest => rawProgress rest

/-- An event list ends in exactly one terminal event (`finished` or
`error`) with only non-terminal events before it: the terminal event is
unique, last, and nothing follows it. -/
def terminalStructure (evs : List (Event μ ρ)) : Prop :=
  ∃ pre t, evs = pre ++ [t] ∧ t.isTerminal = true ∧ ∀ e ∈ pre, e.isTerminal = false

/-- A CUDA-enabled environment with no injected faults, no Bridge
callbacks and a successful Bridge outcome. -/
def cudaOkEnv : WorkerEnv Nat := ⟨true, none, none, none, [], .ok 0⟩

/-- A config targeting CUDA device 0 with no audio file set. -/
def cudaNoAudioCfg : TranscriptionConfig := ⟨"cuda", 0, none⟩

/-- A CPU environment whose Bridge feeds a decreasing progress sequence
(50 then 30) and succeeds. -/
def decreasingCbEnv : WorkerEnv Nat :=
  ⟨false, none, none, none, [.progress 50 0, .progress 30 0], .ok 0⟩

/-- A CPU environment whose Bridge feeds a late progress value 99 and
succeeds, so that the direct final `progress_updated.emit(100)` would be
dropped by the throttle (delta 1 < 2, no time advance). -/
def lateProgressEnv : WorkerEnv Nat :=
  ⟨false, none, none, none, [.progress 99 1000], .ok 5⟩

/-- A CPU config with an audio file set. -/
def cpuAudioCfg : TranscriptionConfig := ⟨"cpu", 0, some "a.wav"⟩

theorem eventsOf_append (a b : List (Step μ ρ)) :
    eventsOf (a ++ b) = eventsOf a ++ eventsOf b :=
  List.filterMap_append a b _

theorem eventsOf_map_emit (l : List (Event μ ρ)) :
    eventsOf (l.map Step.emit) = l := by
  induction l with
  | nil => rfl
  | cons e l ih => simpa [eventsOf] using ih

theorem progressValues_append (a b : List (Event μ ρ)) :
    progressValues (a ++ b) = progressValues a ++ progressValues b :=
  List.filterMap_append a b _

theorem errorsOf_append (a b : List (Event μ ρ)) :
    errorsOf (a ++ b) = errorsOf a ++ errorsOf b :=
  List.filterMap_append a b _

theorem onProgressUpdate_cases (st : ThrottleState) (p : Int) (now : ℚ) :
    onProgressUpdate st p now = (⟨now, p⟩, some p) ∨
      onProgressUpdate st p now = (st, none) := by
  unfold onProgressUpdate
  split <;> simp

theorem throttleRun_not_terminal (cbs : List CbEvent) :
    ∀ (st : ThrottleState), ∀ e ∈ (throttleRun (μ := μ) (ρ := ρ) st cbs).2,
      e.isTerminal = false := by
  induction cbs with
  | nil =>
    intro st e he
    simp [throttleRun] at he
  | cons c rest ih =>
    intro st e he
    cases c with
    | progress p t =>
      rcases onProgressUpdate_cases st p t with h | h
      · simp [throttleRun, h] at he
        rcases he with rfl | he
        · rfl
        · exact ih _ e he
      · simp [throttleRun, h] at he
        exact ih _ e he
    | status s =>
      simp [throttleRun] at he
      rcases he with rfl | he
      · rfl
      · exact ih _ e he

theorem loaderCbEvents_not_terminal (cbs : List CbEvent) :
    ∀ e ∈ loaderCbEvents (μ := μ) (ρ := ρ) cbs, e.isTerminal = false := by
  induction cbs with
  | nil =>
    intro e he
    simp [loaderCbEvents] at he
  | cons c rest ih =>
    intro e he
    cases c with
    | progress p t =>
      simp [loaderCbEvents] at he
      rcases he with rfl | he
      · rfl
      · exact ih e he
    | status s =>
      simp [loaderCbEvents] at he
      rcases he with rfl | he
      · rfl
      · exact ih e he

theorem finished_not_mem_of_not_terminal {l : List (Event μ ρ)}
    (h : ∀ e ∈ l, e.isTerminal = false) : Event.finished ∉ l := by
  intro hm
  simpa [Event.isTerminal] using h _ hm

theorem errorsOf_eq_nil_of_not_terminal {l : List (Event μ ρ)}
    (h : ∀ e ∈ l, e.isTerminal = false) : errorsOf l = [] := by
  unfold errorsOf
  refine List.filterMap_eq_nil_iff.mpr ?_
  intro e he
  have he' := h e he
  cases e <;> simp [Event.isTerminal] at he' ⊢

theorem progressValues_loaderCbEvents (cbs : List CbEvent) :
    progressValues (loaderCbEvents (μ := μ) (ρ := ρ) cbs) = rawProgress cbs := by
  induction cbs with
  | nil => rfl
  | cons c rest ih =>
    cases c <;> simpa [loaderCbEvents, progressValues, rawProgress] using ih

theorem progressValues_throttleRun_sublist (cbs : List CbEvent) :
    ∀ st, List.Sublist (progressValues ((throttleRun (μ := μ) (ρ := ρ) st cbs).2))
      (rawProgress cbs) := by
  induction cbs with
  | nil =>
    intro st
    simp [throttleRun, progressValues]
  | cons c rest ih =>
    intro st
    cases c with
    | progress p t =>
      rcases onProgressUpdate_cases st p t with h | h
      · simpa [throttleRun, h, progressValues, rawProgress] using (ih _).cons₂ p
      · simpa [throttleRun, h, progressValues, rawProgress] using (ih st).cons p
    | status s =>
      simpa [throttleRun, progressValues, rawProgress] using ih st

theorem eventsOf_loaderBody (env : WorkerEnv μ) (lead : List (Step μ ρ))
    (hlead : eventsOf lead = []) :
    eventsOf (loaderBody env lead) =
      Event.statusUpdated "Loading model" :: Event.progressUpdated 0 ::
        (loaderCbEvents env.bridgeCbs ++
          match env.bridgeOutcome with
          | .error m => [Event.error m]
          | .ok models =>
              [Event.progressUpdated 100,
               Event.statusUpdated "Models loaded successfully",
               Event.modelsLoaded models, Event.finished]) := by
  unfold loaderBody
  rw [eventsOf_append, eventsOf_append, eventsOf_append, hlead, eventsOf_map_emit]
  cases env.bridgeOutcome <;> simp [eventsOf]

theorem eventsOf_modelLoaderRun_ok (env : WorkerEnv μ) (cfg : TranscriptionConfig)
    (hp : prologueOk env) :
    eventsOf (modelLoaderRun (ρ := ρ) env cfg) =
      Event.statusUpdated "Loading model" :: Event.progressUpdated 0 ::
        (loaderCbEvents env.bridgeCbs ++
          match env.bridgeOutcome with
          | .error m => [Event.error m]
          | .ok models =>
              [Event.progressUpdated 100,
               Event.statusUpdated "Models loaded successfully",
               Event.modelsLoaded models, Event.finished]) := by
  obtain ⟨h1, h2, h3⟩ := hp
  cases hca : env.cudaAvailable with
  | false =>
    rw [show modelLoaderRun (ρ := ρ) env cfg =
      loaderBody env [Step.importTorch, Step.constructBridge] by
        simp [modelLoaderRun, h1, h2, hca]]
    exact eventsOf_loaderBody env _ rfl
  | true =>
    rw [show modelLoaderRun (ρ := ρ) env cfg =
      loaderBody env [Step.importTorch, Step.constructBridge, Step.setNumThreads,
        Step.enterDeviceContext (deviceId cfg), Step.cudaSynchronize] by
        simp [modelLoaderRun, h1, h2, hca, h3 hca]]
    exact eventsOf_loaderBody env _ rfl

theorem terminalStructure_single_error (m : String) :
    terminalStructure ([Event.error m] : List (Event μ ρ)) :=
  ⟨[], .error m, rfl, rfl, by simp⟩

theorem loader_terminal_of_ok (env : WorkerEnv μ) (cfg : TranscriptionConfig)
    (hp : prologueOk env) :
    terminalStructure (eventsOf (modelLoaderRun (ρ := ρ) env cfg)) ∧
      (Event.finished ∈ eventsOf (modelLoaderRun (ρ := ρ) env cfg) ↔ loaderOk env) := by
  rw [eventsOf_modelLoaderRun_ok env cfg hp]
  cases hout : env.bridgeOutcome with
  | error m =>
    have hmid : ∀ e ∈ Event.statusUpdated (μ := μ) (ρ := ρ) "Loading model" ::
        Event.progressUpdated 0 :: loaderCbEvents env.bridgeCbs, e.isTerminal = false := by
      intro e he
      rcases List.mem_cons.mp he with rfl | he
      · rfl
      rcases List.mem_cons.mp he with rfl | he
      · rfl
      exact loaderCbEvents_not_terminal _ e he
    constructor
    · exact ⟨_, Event.error m, by simp, rfl, hmid⟩
    · refine iff_of_false ?_ ?_
      · intro hmem
        rcases List.mem_cons.mp hmem with h | hmem
        · exact Event.noConfusion h
        rcases List.mem_cons.mp hmem with h | hmem
        · exact Event.noConfusion h
        rcases List.mem_append.mp hmem with hmem | hmem
        · exact absurd hmem (finished_not_mem_of_not_terminal (loaderCbEvents_not_terminal _))
        · simp at hmem
      · rintro ⟨-, models, hm⟩
        rw [hout] at hm
        exact Except.noConfusion hm
  | ok models =>
    constructor
    · refine ⟨Event.statusUpdated "Loading model" :: Event.progressUpdated 0 ::
        (loaderCbEvents env.bridgeCbs ++
          [Event.progressUpdated 100, Event.statusUpdated "Models loaded successfully",
           Event.modelsLoaded models]), Event.finished, by simp, rfl, ?_⟩
      intro e he
      rcases List.mem_cons.mp he with rfl | he
      · rfl
      rcases List.mem_cons.mp he with rfl | he
      · rfl
      rcases List.mem_append.mp he with he | he
      · exact loaderCbEvents_not_terminal _ e he
      · fin_cases he <;> rfl
    · exact iff_of_true (by simp) ⟨hp, models, hout⟩

theorem loader_terminal (env : WorkerEnv μ) (cfg : TranscriptionConfig) :
    terminalStructure (eventsOf (modelLoaderRun (ρ := ρ) env cfg)) ∧
      (Event.finished ∈ eventsOf (modelLoaderRun (ρ := ρ) env cfg) ↔ loaderOk env) := by
  obtain ⟨ca, imf, bcf, devf, cbs, outcome⟩ := env
  cases imf with
  | some m =>
    refine ⟨terminalStructure_single_error m, ?_⟩
    simp [modelLoaderRun, eventsOf, loaderOk, prologueOk]
  | none =>
    cases bcf with
    | some m =>
      refine ⟨terminalStructure_single_error m, ?_⟩
      simp [modelLoaderRun, eventsOf, loaderOk, prologueOk]
    | none =>
      cases ca with
      | true =>
        cases devf with
        | some m =>
          refine ⟨terminalStructure_single_error m, ?_⟩
          simp [modelLoaderRun, eventsOf, loaderOk, prologueOk]
        | none =>
          exact loader_terminal_of_ok _ cfg ⟨rfl, rfl, fun _ => rfl⟩
      | false =>
        exact loader_terminal_of_ok _ cfg ⟨rfl, rfl, by simp⟩

theorem eventsOf_cons (a : Step μ ρ) (tr : List (Step μ ρ)) :
    eventsOf (a :: tr) =
      (match a with | .emit e => [e] | _ => []) ++ eventsOf tr := by
  cases a <;> rfl

theorem eventsOf_nil : eventsOf ([] : List (Step μ ρ)) = [] := rfl

theorem transcriptionBody_falsy (env : WorkerEnv ρ) (cfg : TranscriptionConfig)
    (lead : List (Step μ ρ)) (hfalsy : audioFalsy cfg.audio_file = true) :
    transcriptionBody env cfg lead =
      (lead ++ [Step.checkAudioFile,
        Step.emit (Event.error "No audio file specified!")], throttleInit) := by
  unfold transcriptionBody
  rw [if_pos hfalsy]

theorem transcriptionBody_set (env : WorkerEnv ρ) (cfg : TranscriptionConfig)
    (lead : List (Step μ ρ)) (hfalsy : audioFalsy cfg.audio_file = false) :
    transcriptionBody env cfg lead =
      (lead ++
        [Step.checkAudioFile,
         Step.emit (Event.statusUpdated "Starting transcription..."),
         Step.emit (Event.progressUpdated 0),
         Step.callTranscribe] ++
        ((throttleRun throttleInit env.bridgeCbs).2.map Step.emit) ++
        (match env.bridgeOutcome with
         | .error m => [Step.emit (Event.error m)]
         | .ok res =>
             [Step.emit (Event.progressUpdated 100),
              Step.emit (Event.statusUpdated "Transcription completed"),
              Step.emit (Event.transcriptionCompleted res),
              Step.emit Event.finished]),
       (throttleRun (μ := μ) (ρ := ρ) throttleInit env.bridgeCbs).1) := by
  unfold transcriptionBody
  rw [if_neg (by simp [hfalsy])]

theorem transcriptionRun_ok (env : WorkerEnv ρ) (cfg : TranscriptionConfig)
    (hp : prologueOk env) :
    transcriptionRun (μ := μ) env cfg =
      transcriptionBody env cfg
        (if env.cudaAvailable then
          [Step.importTorch, Step.constructBridge, Step.setNumThreads,
           Step.enterDeviceContext (deviceId cfg), Step.cudaSynchronize]
         else [Step.importTorch, Step.constructBridge]) := by
  obtain ⟨h1, h2, h3⟩ := hp
  cases hca : env.cudaAvailable with
  | false => simp [transcriptionRun, h1, h2, hca]
  | true => simp [transcriptionRun, h1, h2, hca, h3 hca]

theorem eventsOf_transcriptionRun_falsy (env : WorkerEnv ρ) (cfg : TranscriptionConfig)
    (hp : prologueOk env) (hfalsy : audioFalsy cfg.audio_file = true) :
    eventsOf (transcriptionRun (μ := μ) env cfg).1 =
      [Event.error "No audio file specified!"] := by
  rw [transcriptionRun_ok env cfg hp, transcriptionBody_falsy env cfg _ hfalsy]
  cases hca : env.cudaAvailable <;>
    simp [hca, eventsOf_append, eventsOf_cons, eventsOf]

theorem eventsOf_transcriptionRun_set (env : WorkerEnv ρ) (cfg : TranscriptionConfig)
    (hp : prologueOk env) (hfalsy : audioFalsy cfg.audio_file = false) :
    eventsOf (transcriptionRun (μ := μ) env cfg).1 =
      Event.statusUpdated "Starting transcription..." :: Event.progressUpdated 0 ::
        ((throttleRun throttleInit env.bridgeCbs).2 ++
          match env.bridgeOutcome with
          | .error m => [Event.error m]
          | .ok res =>
              [Event.progressUpdated 100, Event.statusUpdated "Transcription completed",
               Event.transcriptionCompleted res, Event.finished]) ∧
    (transcriptionRun (μ := μ) env cfg).2 =
      (throttleRun (μ := μ) (ρ := ρ) throttleInit env.bridgeCbs).1 := by
  rw [transcriptionRun_ok env cfg hp, transcriptionBody_set env cfg _ hfalsy]
  constructor
  · cases hout : env.bridgeOutcome <;> cases hca : env.cudaAvailable <;>
      simp [hca, hout, eventsOf_append, eventsOf_cons, eventsOf_map_emit, eventsOf_nil]
  · rfl

theorem transcription_terminal_of_ok (env : WorkerEnv ρ) (cfg : TranscriptionConfig)
    (hp : prologueOk env) (hfalsy : audioFalsy cfg.audio_file = false) :
    terminalStructure (eventsOf (transcriptionRun (μ := μ) env cfg).1) ∧
      (Event.finished ∈ eventsOf (transcriptionRun (μ := μ) env cfg).1 ↔
        transcribeOk env cfg) := by
  obtain ⟨hev, -⟩ := eventsOf_transcriptionRun_set (μ := μ) env cfg hp hfalsy
  rw [hev]
  cases hout : env.bridgeOutcome with
  | error m =>
    constructor
    · refine ⟨Event.statusUpdated "Starting transcription..." :: Event.progressUpdated 0 ::
        (throttleRun throttleInit env.bridgeCbs).2, Event.error m, by simp, rfl, ?_⟩
      intro e he
      rcases List.mem_cons.mp he with rfl | he
      · rfl
      rcases List.mem_cons.mp he with rfl | he
      · rfl
      exact throttleRun_not_terminal _ _ e he
    · refine iff_of_false ?_ ?_
      · intro hmem
        rcases List.mem_cons.mp hmem with h | hmem
        · exact Event.noConfusion h
        rcases List.mem_cons.mp hmem with h | hmem
        · exact Event.noConfusion h
        rcases List.mem_append.mp hmem with hmem | hmem
        · exact absurd hmem
            (finished_not_mem_of_not_terminal (throttleRun_not_terminal _ _))
        · simp at hmem
      · rintro ⟨-, -, res, hm⟩
        rw [hout] at hm
        exact Except.noConfusion hm
  | ok res =>
    constructor
    · refine ⟨Event.statusUpdated "Starting transcription..." :: Event.progressUpdated 0 ::
        ((throttleRun throttleInit env.bridgeCbs).2 ++
          [Event.progressUpdated 100, Event.statusUpdated "Transcription completed",
           Event.transcriptionCompleted res]), Event.finished, by simp, rfl, ?_⟩
      intro e he
      rcases List.mem_cons.mp he with rfl | he
      · rfl
      rcases List.mem_cons.mp he with rfl | he
      · rfl
      rcases List.mem_append.mp he with he | he
      · exact throttleRun_not_terminal _ _ e he
      · fin_cases he <;> rfl
    · exact iff_of_true (by simp) ⟨hp, hfalsy, res, hout⟩

theorem transcription_terminal (env : WorkerEnv ρ) (cfg : TranscriptionConfig) :
    terminalStructure (eventsOf (transcriptionRun (μ := μ) env cfg).1) ∧
      (Event.finished ∈ eventsOf (transcriptionRun (μ := μ) env cfg).1 ↔
        transcribeOk env cfg) := by
  by_cases hp : prologueOk env
  · by_cases hfalsy : audioFalsy cfg.audio_file = true
    · rw [eventsOf_transcriptionRun_falsy env cfg hp hfalsy]
      refine ⟨terminalStructure_single_error _, iff_of_false (by simp) ?_⟩
      rintro ⟨-, hf, -⟩
      rw [hfalsy] at hf
      exact Bool.noConfusion hf
    · exact transcription_terminal_of_ok env cfg hp (by simpa using hfalsy)
  · obtain ⟨ca, imf, bcf, devf, cbs, outcome⟩ := env
    cases imf with
    | some m =>
      refine ⟨terminalStructure_single_error m, ?_⟩
      simp [transcriptionRun, eventsOf, transcribeOk, prologueOk]
    | none =>
      cases bcf with
      | some m =>
        refine ⟨terminalStructure_single_error m, ?_⟩
        simp [transcriptionRun, eventsOf, transcribeOk, prologueOk]
      | none =>
        cases ca with
        | true =>
          cases devf with
          | some m =>
            refine ⟨terminalStructure_single_error m, ?_⟩
            simp [transcriptionRun, eventsOf, transcribeOk, prologueOk]
          | none => exact absurd ⟨rfl, rfl, fun _ => rfl⟩ hp
        | false => exact absurd ⟨rfl, rfl, by simp⟩ hp

theorem progressValues_cons (e : Event μ ρ) (l : List (Event μ ρ)) :
    progressValues (e :: l) =
      (match e with | .progressUpdated q => [q] | _ => []) ++ progressValues l := by
  cases e <;> rfl

theorem progressValues_nil : progressValues ([] : List (Event μ ρ)) = [] := rfl

theorem errorsOf_cons (e : Event μ ρ) (l : List (Event μ ρ)) :
    errorsOf (e :: l) =
      (match e with | .error m => [m] | _ => []) ++ errorsOf l := by
  cases e <;> rfl

theorem errorsOf_nil : errorsOf ([] : List (Event μ ρ)) = [] := rfl

theorem finished_last_of_terminal {evs : List (Event μ ρ)}
    (hts : terminalStructure evs) (hmem : Event.finished ∈ evs) :
    ∃ pre, evs = pre ++ [Event.finished] ∧ Event.finished ∉ pre := by
  obtain ⟨pre, t, rfl, hterm, hpre⟩ := hts
  have hne : Event.finished ∉ pre := finished_not_mem_of_not_terminal hpre
  have ht : t = Event.finished := by
    rcases List.mem_append.mp hmem with h | h
    · exact absurd h hne
    · exact (List.mem_singleton.mp h).symm
  subst ht
  exact ⟨pre, rfl, hne⟩

theorem pairwise_zero_mid_hundred (vals : List Int)
    (hmono : List.Pairwise (· ≤ ·) vals)
    (hrange : ∀ q ∈ vals, 0 ≤ q ∧ q ≤ 100) :
    List.Pairwise (· ≤ ·) (0 :: vals ++ [100]) ∧
    (0 :: vals ++ [100] : List Int).head? = some 0 ∧
    (0 :: vals ++ [100] : List Int).getLast? = some 100 := by
  refine ⟨?_, rfl, List.getLast?_concat _⟩
  rw [List.pairwise_append]
  refine ⟨?_, by simp, ?_⟩
  · rw [List.pairwise_cons]
    exact ⟨fun b hb => (hrange b hb).1, hmono⟩
  · intro a ha b hb
    rw [List.mem_singleton.mp hb]
    rcases List.mem_cons.mp ha with rfl | ha
    · norm_num
    · exact (hrange a ha).2

theorem loader_progress_profile (env : WorkerEnv μ) (cfg : TranscriptionConfig)
    (models : μ) (hp : prologueOk env) (hout : env.bridgeOutcome = .ok models) :
    progressValues (eventsOf (modelLoaderRun (ρ := ρ) env cfg)) =
      0 :: rawProgress env.bridgeCbs ++ [100] := by
  rw [eventsOf_modelLoaderRun_ok env cfg hp, hout]
  simp [progressValues_cons, progressValues_append, progressValues_nil,
    progressValues_loaderCbEvents]

theorem transcription_progress_profile (env : WorkerEnv ρ) (cfg : TranscriptionConfig)
    (res : ρ) (hp : prologueOk env) (hfalsy : audioFalsy cfg.audio_file = false)
    (hout : env.bridgeOutcome = .ok res) :
    progressValues (eventsOf (transcriptionRun (μ := μ) env cfg).1) =
      0 :: progressValues ((throttleRun (μ := μ) (ρ := ρ) throttleInit env.bridgeCbs).2)
        ++ [100] := by
  obtain ⟨hev, -⟩ := eventsOf_transcriptionRun_set (μ := μ) env cfg hp hfalsy
  rw [hev, hout]
  simp [progressValues_cons, progressValues_append, progressValues_nil]

theorem loader_errors (env : WorkerEnv μ) (cfg : TranscriptionConfig) :
    errorsOf (eventsOf (modelLoaderRun (ρ := ρ) env cfg)) =
      (loaderFirstFault env).toList := by
  obtain ⟨ca, imf, bcf, devf, cbs, outcome⟩ := env
  cases imf with
  | some m => simp [modelLoaderRun, loaderFirstFault, eventsOf_cons, eventsOf_nil,
      errorsOf_cons, errorsOf_nil]
  | none =>
    cases bcf with
    | some m => simp [modelLoaderRun, loaderFirstFault, eventsOf_cons, eventsOf_nil,
        errorsOf_cons, errorsOf_nil]
    | none =>
      have hcb := errorsOf_eq_nil_of_not_terminal
        (loaderCbEvents_not_terminal (μ := μ) (ρ := ρ) cbs)
      cases ca with
      | true =>
        cases devf with
        | some m => simp [modelLoaderRun, loaderFirstFault, eventsOf_cons, eventsOf_nil,
            errorsOf_cons, errorsOf_nil]
        | none =>
          rw [eventsOf_modelLoaderRun_ok ⟨true, none, none, none, cbs, outcome⟩ cfg
            ⟨rfl, rfl, fun _ => rfl⟩]
          cases outcome <;>
            simp [loaderFirstFault, errorsOf_cons, errorsOf_append, errorsOf_nil, hcb]
      | false =>
        rw [eventsOf_modelLoaderRun_ok ⟨false, none, none, devf, cbs, outcome⟩ cfg
          ⟨rfl, rfl, fun h => nomatch h⟩]
        cases outcome <;>
          simp [loaderFirstFault, errorsOf_cons, errorsOf_append, errorsOf_nil, hcb]

theorem transcription_errors (env : WorkerEnv ρ) (cfg : TranscriptionConfig) :
    errorsOf (eventsOf (transcriptionRun (μ := μ) env cfg).1) =
      (transcribeFirstFault env cfg).toList := by
  obtain ⟨ca, imf, bcf, devf, cbs, outcome⟩ := env
  cases imf with
  | some m => simp [transcriptionRun, transcribeFirstFault, eventsOf_cons, eventsOf_nil,
      errorsOf_cons, errorsOf_nil]
  | none =>
    cases bcf with
    | some m => simp [transcriptionRun, transcribeFirstFault, eventsOf_cons, eventsOf_nil,
        errorsOf_cons, errorsOf_nil]
    | none =>
      have hcb := errorsOf_eq_nil_of_not_terminal
        (throttleRun_not_terminal (μ := μ) (ρ := ρ) cbs throttleInit)
      cases ca with
      | true =>
        cases devf with
        | some m => simp [transcriptionRun, transcribeFirstFault, eventsOf_cons,
            eventsOf_nil, errorsOf_cons, errorsOf_nil]
        | none =>
          cases hfalsy : audioFalsy cfg.audio_file with
          | true =>
            rw [eventsOf_transcriptionRun_falsy ⟨true, none, none, none, cbs, outcome⟩ cfg
              ⟨rfl, rfl, fun _ => rfl⟩ hfalsy]
            simp [transcribeFirstFault, hfalsy, errorsOf_cons, errorsOf_nil]
          | false =>
            obtain ⟨hev, -⟩ :=
              eventsOf_transcriptionRun_set (μ := μ) ⟨true, none, none, none, cbs, outcome⟩
                cfg ⟨rfl, rfl, fun _ => rfl⟩ hfalsy
            rw [hev]
            cases outcome <;>
              simp [transcribeFirstFault, hfalsy, errorsOf_cons, errorsOf_append,
                errorsOf_nil, hcb]
      | false =>
        cases hfalsy : audioFalsy cfg.audio_file with
        | true =>
          rw [eventsOf_transcriptionRun_falsy ⟨false, none, none, devf, cbs, outcome⟩ cfg
            ⟨rfl, rfl, fun h => nomatch h⟩ hfalsy]
          simp [transcribeFirstFault, hfalsy, errorsOf_cons, errorsOf_nil]
        | false =>
          obtain ⟨hev, -⟩ :=
            eventsOf_transcriptionRun_set (μ := μ) ⟨false, none, none, devf, cbs, outcome⟩
              cfg ⟨rfl, rfl, fun h => nomatch h⟩ hfalsy
          rw [hev]
          cases outcome <;>
            simp [transcribeFirstFault, hfalsy, errorsOf_cons, errorsOf_append,
              errorsOf_nil, hcb]

/-- C1: every execution of ModelLoadTask.run() or TranscribeTask.run()
emits exactly one terminal event (`finished` or `error`), the terminal
event is the last event emitted, and `finished` is emitted if and only
if no fault occurred on the path. -/
theorem terminal_event_exactly_once (μ ρ : Type) (envL : WorkerEnv μ)
    (envT : WorkerEnv ρ) (cfgL cfgT : TranscriptionConfig) :
    (terminalStructure (eventsOf (modelLoaderRun (ρ := ρ) envL cfgL)) ∧
      (Event.finished ∈ eventsOf (modelLoaderRun (ρ := ρ) envL cfgL) ↔ loaderOk envL)) ∧
    (terminalStructure (eventsOf (transcriptionRun (μ := μ) envT cfgT).1) ∧
      (Event.finished ∈ eventsOf (transcriptionRun (μ := μ) envT cfgT).1 ↔
        transcribeOk envT cfgT)) :=
  ⟨loader_terminal envL cfgL, transcription_terminal envT cfgT⟩

/-- C1 witness: the terminal protocol at a concrete CUDA environment
and config. -/
theorem terminal_event_exactly_once_witness :
    (terminalStructure (eventsOf (modelLoaderRun (ρ := Nat) cudaOkEnv cudaNoAudioCfg)) ∧
      (Event.finished ∈ eventsOf (modelLoaderRun (ρ := Nat) cudaOkEnv cudaNoAudioCfg) ↔
        loaderOk cudaOkEnv)) ∧
    (terminalStructure (eventsOf (transcriptionRun (μ := Nat) cudaOkEnv cudaNoAudioCfg).1) ∧
      (Event.finished ∈ eventsOf (transcriptionRun (μ := Nat) cudaOkEnv cudaNoAudioCfg).1 ↔
        transcribeOk cudaOkEnv cudaNoAudioCfg)) :=
  terminal_event_exactly_once Nat Nat cudaOkEnv cudaOkEnv cudaNoAudioCfg cudaNoAudioCfg

/-- C3: for every Config with `audio_file` unset, TranscribeTask.run()
in a benign environment (no import, Bridge-construction or device fault)
emits exactly the single event `Error("No audio file specified!")`, so
no ProgressUpdated, StatusUpdated, TranscriptionCompleted or Finished
event is emitted. -/
theorem missing_audio_single_error_event (μ ρ : Type) (env : WorkerEnv ρ)
    (cfg : TranscriptionConfig) (hp : prologueOk env)
    (hunset : cfg.audio_file = none) :
    eventsOf (transcriptionRun (μ := μ) env cfg).1 =
      [Event.error "No audio file specified!"] :=
  eventsOf_transcriptionRun_falsy env cfg hp (by simp [hunset, audioFalsy])

/-- C3 witness: the missing-audio error at a concrete CUDA environment. -/
theorem missing_audio_single_error_event_witness :
    eventsOf (transcriptionRun (μ := Nat) cudaOkEnv cudaNoAudioCfg).1 =
      [Event.error "No audio file specified!"] :=
  missing_audio_single_error_event Nat Nat cudaOkEnv cudaNoAudioCfg
    ⟨rfl, rfl, fun _ => rfl⟩ rfl

/-- C6: when the prologue succeeds, `Bridge.load_models` returns
`models` and invokes no callbacks, ModelLoadTask.run() emits exactly
StatusUpdated("Loading model"), ProgressUpdated(0), ProgressUpdated(100),
StatusUpdated("Models loaded successfully"), ModelsLoaded(models),
Finished, with `models` passed through unchanged. -/
theorem loader_success_event_sequence (μ ρ : Type) (env : WorkerEnv μ)
    (cfg : TranscriptionConfig) (models : μ) (hp : prologueOk env)
    (hcbs : env.bridgeCbs = []) (hout : env.bridgeOutcome = .ok models) :
    eventsOf (modelLoaderRun (ρ := ρ) env cfg) =
      [Event.statusUpdated "Loading model", Event.progressUpdated 0,
       Event.progressUpdated 100, Event.statusUpdated "Models loaded successfully",
       Event.modelsLoaded models, Event.finished] := by
  rw [eventsOf_modelLoaderRun_ok env cfg hp, hcbs, hout]
  rfl

/-- C6 witness: the success sequence at a concrete CUDA environment. -/
theorem loader_success_event_sequence_witness :
    eventsOf (modelLoaderRun (μ := Nat) (ρ := Nat) cudaOkEnv cudaNoAudioCfg) =
      [Event.statusUpdated "Loading model", Event.progressUpdated 0,
       Event.progressUpdated 100, Event.statusUpdated "Models loaded successfully",
       Event.modelsLoaded 0, Event.finished] :=
  loader_success_event_sequence Nat Nat cudaOkEnv cudaNoAudioCfg 0
    ⟨rfl, rfl, fun _ => rfl⟩ rfl rfl

/-- C8: run() of either task converts every fault on its path into a
single Error event carrying that fault's message `str(fault)`: the
error messages emitted are exactly the (at most one) first fault of the
execution.  Totality of the embedding reflects that run() never raises
outward. -/
theorem faults_mapped_to_single_error (μ ρ : Type) (envL : WorkerEnv μ)
    (envT : WorkerEnv ρ) (cfgL cfgT : TranscriptionConfig) :
    errorsOf (eventsOf (modelLoaderRun (ρ := ρ) envL cfgL)) =
      (loaderFirstFault envL).toList ∧
    errorsOf (eventsOf (transcriptionRun (μ := μ) envT cfgT).1) =
      (transcribeFirstFault envT cfgT).toList :=
  ⟨loader_errors envL cfgL, transcription_errors envT cfgT⟩

/-- C8 witness: fault-to-error mapping at a concrete environment with a
device fault. -/
theorem faults_mapped_to_single_error_witness :
    errorsOf (eventsOf (modelLoaderRun (μ := Nat) (ρ := Nat)
        ⟨true, none, none, some "CUDA out of memory", [], .ok 0⟩ cudaNoAudioCfg)) =
      (loaderFirstFault (μ := Nat)
        ⟨true, none, none, some "CUDA out of memory", [], .ok 0⟩).toList ∧
    errorsOf (eventsOf (transcriptionRun (μ := Nat) (ρ := Nat)
        cudaOkEnv cudaNoAudioCfg).1) =
      (transcribeFirstFault cudaOkEnv cudaNoAudioCfg).toList :=
  faults_mapped_to_single_error Nat Nat
    ⟨true, none, none, some "CUDA out of memory", [], .ok 0⟩ cudaOkEnv
    cudaNoAudioCfg cudaNoAudioCfg

/-- C10: on the TranscribeTask success path the final
ProgressUpdated(100) is emitted directly on the channel after the
throttled callback events, unconditionally (it does not pass through
`_on_progress_update`), and the throttle state after run() equals the
state after the last Bridge callback: the direct emission leaves
`_last_progress_value` and `_last_progress_time` unchanged. -/
theorem final_progress_emitted_directly (μ ρ : Type) (env : WorkerEnv ρ)
    (cfg : TranscriptionConfig) (res : ρ) (hp : prologueOk env)
    (hfalsy : audioFalsy cfg.audio_file = false)
    (hout : env.bridgeOutcome = .ok res) :
    eventsOf (transcriptionRun (μ := μ) env cfg).1 =
      Event.statusUpdated "Starting transcription..." :: Event.progressUpdated 0 ::
        ((throttleRun throttleInit env.bridgeCbs).2 ++
          [Event.progressUpdated 100, Event.statusUpdated "Transcription completed",
           Event.transcriptionCompleted res, Event.finished]) ∧
    (transcriptionRun (μ := μ) env cfg).2 =
      (throttleRun (μ := μ) (ρ := ρ) throttleInit env.bridgeCbs).1 := by
  obtain ⟨hev, hst⟩ := eventsOf_transcriptionRun_set (μ := μ) env cfg hp hfalsy
  rw [hout] at hev
  exact ⟨hev, hst⟩

/-- C10 witness: at a concrete environment whose last callback progress
is 99 at time 1000, the throttle would drop a subsequent 100 (delta 1,
no time advance), yet ProgressUpdated(100) is emitted and the throttle
state is left at the post-callback state. -/
theorem final_progress_emitted_directly_witness :
    (onProgressUpdate ⟨1000, 99⟩ 100 1000).2 = none ∧
    (eventsOf (transcriptionRun (μ := Nat) lateProgressEnv cpuAudioCfg).1 =
      Event.statusUpdated "Starting transcription..." :: Event.progressUpdated 0 ::
        ((throttleRun throttleInit lateProgressEnv.bridgeCbs).2 ++
          [Event.progressUpdated 100, Event.statusUpdated "Transcription completed",
           Event.transcriptionCompleted 5, Event.finished]) ∧
     (transcriptionRun (μ := Nat) lateProgressEnv cpuAudioCfg).2 =
       (throttleRun (μ := Nat) (ρ := Nat) throttleInit lateProgressEnv.bridgeCbs).1) :=
  ⟨by norm_num [onProgressUpdate],
   final_progress_emitted_directly Nat Nat lateProgressEnv cpuAudioCfg 5
     ⟨rfl, rfl, fun h => nomatch h⟩ (by decide) rfl⟩

/-- C2 counterexample: with CUDA available and no injected faults, a
TranscribeTask whose config has no audio file constructs the Bridge and
performs all device-affinity work (thread pinning, device context,
synchronization) BEFORE emitting the missing-audio error: the trace up
to the error emission contains the Bridge construction and device work,
refuting the claim that the fault precedes them. -/
theorem precondition_check_order_cex :
    (transcriptionRun (μ := Nat) cudaOkEnv cudaNoAudioCfg).1 =
      [Step.importTorch, Step.constructBridge, Step.setNumThreads,
       Step.enterDeviceContext 0, Step.cudaSynchronize, Step.checkAudioFile,
       Step.emit (Event.error "No audio file specified!")] ∧
    ((transcriptionRun (μ := Nat) cudaOkEnv cudaNoAudioCfg).1.takeWhile
        (fun a => !a.isErrorEmit)).any
      (fun a => a.isDeviceWork || a.isBridgeCtor) = true := by
  constructor
  · decide
  · decide

/-- C2 amended: for every Config whose audio_file is falsy, a benign
TranscribeTask.run() raises the fault "No audio file specified!" after
Bridge construction and the device-affinity work (when CUDA is
available) but before any Bridge call: the trace is exactly the
prologue actions followed by the check and the error emission, and
contains no transcribe_audio or load_models call. -/
theorem precondition_check_before_bridge_call (μ ρ : Type) (env : WorkerEnv ρ)
    (cfg : TranscriptionConfig) (hp : prologueOk env)
    (hfalsy : audioFalsy cfg.audio_file = true) :
    (transcriptionRun (μ := μ) env cfg).1 =
      (if env.cudaAvailable then
        [Step.importTorch, Step.constructBridge, Step.setNumThreads,
         Step.enterDeviceContext (deviceId cfg), Step.cudaSynchronize]
       else [Step.importTorch, Step.constructBridge]) ++
        [Step.checkAudioFile, Step.emit (Event.error "No audio file specified!")] ∧
    Step.callTranscribe ∉ (transcriptionRun (μ := μ) env cfg).1 ∧
    Step.callLoadModels ∉ (transcriptionRun (μ := μ) env cfg).1 := by
  rw [transcriptionRun_ok env cfg hp, transcriptionBody_falsy env cfg _ hfalsy]
  refine ⟨rfl, ?_, ?_⟩ <;> cases hca : env.cudaAvailable <;> simp [hca]

/-- C2 amended witness: the pre-Bridge-call failure at a concrete CUDA
environment and config. -/
theorem precondition_check_before_bridge_call_witness :
    (transcriptionRun (μ := Nat) cudaOkEnv cudaNoAudioCfg).1 =
      (if cudaOkEnv.cudaAvailable then
        [Step.importTorch, Step.constructBridge, Step.setNumThreads,
         Step.enterDeviceContext (deviceId cudaNoAudioCfg), Step.cudaSynchronize]
       else [Step.importTorch, Step.constructBridge]) ++
        [Step.checkAudioFile, Step.emit (Event.error "No audio file specified!")] ∧
    Step.callTranscribe ∉ (transcriptionRun (μ := Nat) cudaOkEnv cudaNoAudioCfg).1 ∧
    Step.callLoadModels ∉ (transcriptionRun (μ := Nat) cudaOkEnv cudaNoAudioCfg).1 :=
  precondition_check_before_bridge_call Nat Nat cudaOkEnv cudaNoAudioCfg
    ⟨rfl, rfl, fun _ => rfl⟩ rfl

/-- C4: the throttled progress callback of TranscribeTask starts from
`P = -1`, `T = 0`, and on a raw value `p` at time `now` emits `p`,
setting `P := p` and `T := now`, if and only if `p - P ≥ 2` or
`now - T ≥ 2.0`; otherwise it drops `p` leaving `P` and `T` unchanged. -/
theorem progress_throttle_emit_iff (st : ThrottleState) (p : Int) (now : ℚ) :
    throttleInit.lastProgressValue = -1 ∧ throttleInit.lastProgressTime = 0 ∧
    (2 ≤ p - st.lastProgressValue ∨ 2 ≤ now - st.lastProgressTime →
      onProgressUpdate st p now = (⟨now, p⟩, some p)) ∧
    (¬(2 ≤ p - st.lastProgressValue ∨ 2 ≤ now - st.lastProgressTime) →
      onProgressUpdate st p now = (st, none)) := by
  refine ⟨rfl, rfl, fun h => ?_, fun h => ?_⟩
  · unfold onProgressUpdate
    rw [if_pos h]
  · unfold onProgressUpdate
    rw [if_neg h]

/-- C4 witness: one emitting call (fresh state, p = 5) and one dropped
call (P = 4, p = 5, one simulated second after T = 10). -/
theorem progress_throttle_emit_iff_witness :
    onProgressUpdate ⟨0, -1⟩ 5 0 = (⟨0, 5⟩, some 5) ∧
    onProgressUpdate ⟨10, 4⟩ 5 11 = (⟨10, 4⟩, none) :=
  ⟨(progress_throttle_emit_iff ⟨0, -1⟩ 5 0).2.2.1 (Or.inl (by norm_num)),
   (progress_throttle_emit_iff ⟨10, 4⟩ 5 11).2.2.2 (by norm_num)⟩

/-- C5: feeding the raw sequence 0,1,2,3,4,5,6 to a fresh
TranscribeTask throttled callback at one fixed wall-clock time `t`
(`time.time()` is at least 2 seconds past the epoch, so the initial
`T = 0` makes the first call pass the time test) yields exactly the four
emissions 0, 2, 4, 6 in that order. -/
theorem throttle_sequence_zero_to_six (μ ρ : Type) (t : ℚ) (ht : 2 ≤ t) :
    (throttleRun (μ := μ) (ρ := ρ) throttleInit
      [.progress 0 t, .progress 1 t, .progress 2 t, .progress 3 t,
       .progress 4 t, .progress 5 t, .progress 6 t]).2 =
      [Event.progressUpdated 0, Event.progressUpdated 2,
       Event.progressUpdated 4, Event.progressUpdated 6] := by
  have htime : ∀ (st : ThrottleState) (p : Int) (now : ℚ),
      2 ≤ now - st.lastProgressTime → onProgressUpdate st p now = (⟨now, p⟩, some p) := by
    intro st p now h
    unfold onProgressUpdate
    rw [if_pos (Or.inr h)]
  have hdelta : ∀ (st : ThrottleState) (p : Int) (now : ℚ),
      2 ≤ p - st.lastProgressValue → onProgressUpdate st p now = (⟨now, p⟩, some p) := by
    intro st p now h
    unfold onProgressUpdate
    rw [if_pos (Or.inl h)]
  have hdrop : ∀ (st : ThrottleState) (p : Int) (now : ℚ),
      p - st.lastProgressValue < 2 → now - st.lastProgressTime < 2 →
      onProgressUpdate st p now = (st, none) := by
    intro st p now h1 h2
    unfold onProgressUpdate
    rw [if_neg (by rw [not_or]; exact ⟨not_le.mpr h1, not_le.mpr h2⟩)]
  have h0 : onProgressUpdate throttleInit 0 t = (⟨t, 0⟩, some 0) :=
    htime throttleInit 0 t (by simpa [throttleInit] using ht)
  have h1 : onProgressUpdate ⟨t, 0⟩ 1 t = (⟨t, 0⟩, none) :=
    hdrop ⟨t, 0⟩ 1 t (by norm_num) (by norm_num)
  have h2 : onProgressUpdate ⟨t, 0⟩ 2 t = (⟨t, 2⟩, some 2) :=
    hdelta ⟨t, 0⟩ 2 t (by norm_num)
  have h3 : onProgressUpdate ⟨t, 2⟩ 3 t = (⟨t, 2⟩, none) :=
    hdrop ⟨t, 2⟩ 3 t (by norm_num) (by norm_num)
  have h4 : onProgressUpdate ⟨t, 2⟩ 4 t = (⟨t, 4⟩, some 4) :=
    hdelta ⟨t, 2⟩ 4 t (by norm_num)
  have h5 : onProgressUpdate ⟨t, 4⟩ 5 t = (⟨t, 4⟩, none) :=
    hdrop ⟨t, 4⟩ 5 t (by norm_num) (by norm_num)
  have h6 : onProgressUpdate ⟨t, 4⟩ 6 t = (⟨t, 6⟩, some 6) :=
    hdelta ⟨t, 4⟩ 6 t (by norm_num)
  simp [throttleRun, h0, h1, h2, h3, h4, h5, h6]

/-- C5 witness: the throttled sequence at the concrete wall-clock time
t = 2. -/
theorem throttle_sequence_zero_to_six_witness :
    (2 : ℚ) ≤ 2 ∧
    (throttleRun (μ := Nat) (ρ := Nat) throttleInit
      [.progress 0 2, .progress 1 2, .progress 2 2, .progress 3 2,
       .progress 4 2, .progress 5 2, .progress 6 2]).2 =
      [Event.progressUpdated 0, Event.progressUpdated 2,
       Event.progressUpdated 4, Event.progressUpdated 6] :=
  ⟨le_refl 2, throttle_sequence_zero_to_six Nat Nat 2 (le_refl 2)⟩

/-- C7 counterexample: a successful ModelLoadTask run whose Bridge feeds
the decreasing raw progress values 50 then 30 emits the progress
sequence 0, 50, 30, 100, which is not non-decreasing: the claim fails
for arbitrary Bridge callback behaviour. -/
theorem progress_monotone_cex :
    loaderOk decreasingCbEnv ∧
    ¬ List.Pairwise (· ≤ ·)
      (progressValues (eventsOf (modelLoaderRun (ρ := Nat) decreasingCbEnv cudaNoAudioCfg))) :=
  ⟨⟨⟨rfl, rfl, fun h => nomatch h⟩, 0, rfl⟩, by decide⟩

/-- C7 amended: for every successful run of either task whose Bridge
feeds non-decreasing raw progress values within 0..100, the emitted
ProgressUpdated sequence is non-decreasing, starts at 0, ends at 100,
and Finished is the last event, occurring exactly once. -/
theorem progress_monotone_of_monotone_callbacks (μ ρ : Type)
    (envL : WorkerEnv μ) (envT : WorkerEnv ρ) (cfgL cfgT : TranscriptionConfig)
    (models : μ) (res : ρ)
    (hpL : prologueOk envL) (houtL : envL.bridgeOutcome = .ok models)
    (hmonoL : List.Pairwise (· ≤ ·) (rawProgress envL.bridgeCbs))
    (hrangeL : ∀ q ∈ rawProgress envL.bridgeCbs, 0 ≤ q ∧ q ≤ 100)
    (hpT : prologueOk envT) (hfT : audioFalsy cfgT.audio_file = false)
    (houtT : envT.bridgeOutcome = .ok res)
    (hmonoT : List.Pairwise (· ≤ ·) (rawProgress envT.bridgeCbs))
    (hrangeT : ∀ q ∈ rawProgress envT.bridgeCbs, 0 ≤ q ∧ q ≤ 100) :
    (List.Pairwise (· ≤ ·) (progressValues (eventsOf (modelLoaderRun (ρ := ρ) envL cfgL))) ∧
     (progressValues (eventsOf (modelLoaderRun (ρ := ρ) envL cfgL))).head? = some 0 ∧
     (progressValues (eventsOf (modelLoaderRun (ρ := ρ) envL cfgL))).getLast? = some 100 ∧
     ∃ pre, eventsOf (modelLoaderRun (ρ := ρ) envL cfgL) = pre ++ [Event.finished] ∧
       Event.finished ∉ pre) ∧
    (List.Pairwise (· ≤ ·)
        (progressValues (eventsOf (transcriptionRun (μ := μ) envT cfgT).1)) ∧
     (progressValues (eventsOf (transcriptionRun (μ := μ) envT cfgT).1)).head? = some 0 ∧
     (progressValues (eventsOf (transcriptionRun (μ := μ) envT cfgT).1)).getLast? =
       some 100 ∧
     ∃ pre, eventsOf (transcriptionRun (μ := μ) envT cfgT).1 = pre ++ [Event.finished] ∧
       Event.finished ∉ pre) := by
  constructor
  · have hprof := loader_progress_profile (ρ := ρ) envL cfgL models hpL houtL
    obtain ⟨hpw, hh, hl⟩ := pairwise_zero_mid_hundred _ hmonoL hrangeL
    have hterm := loader_terminal (ρ := ρ) envL cfgL
    refine ⟨?_, ?_, ?_, ?_⟩
    · rw [hprof]; exact hpw
    · rw [hprof]; exact hh
    · rw [hprof]; exact hl
    · exact finished_last_of_terminal hterm.1 (hterm.2.mpr ⟨hpL, models, houtL⟩)
  · have hsub := progressValues_throttleRun_sublist (μ := μ) (ρ := ρ)
      envT.bridgeCbs throttleInit
    have hmono' := hmonoT.sublist hsub
    have hrange' : ∀ q ∈ progressValues
        ((throttleRun (μ := μ) (ρ := ρ) throttleInit envT.bridgeCbs).2),
        0 ≤ q ∧ q ≤ 100 := fun q hq => hrangeT q (hsub.subset hq)
    have hprof := transcription_progress_profile (μ := μ) envT cfgT res hpT hfT houtT
    obtain ⟨hpw, hh, hl⟩ := pairwise_zero_mid_hundred _ hmono' hrange'
    have hterm := transcription_terminal (μ := μ) envT cfgT
    refine ⟨?_, ?_, ?_, ?_⟩
    · rw [hprof]; exact hpw
    · rw [hprof]; exact hh
    · rw [hprof]; exact hl
    · exact finished_last_of_terminal hterm.1 (hterm.2.mpr ⟨hpT, hfT, res, houtT⟩)

/-- C7 amended witness: the progress profile at a concrete loader
environment with no callbacks and a concrete transcription environment
with one callback at 99. -/
theorem progress_monotone_of_monotone_callbacks_witness :
    (List.Pairwise (· ≤ ·)
        (progressValues (eventsOf (modelLoaderRun (ρ := Nat) cudaOkEnv cudaNoAudioCfg))) ∧
     (progressValues (eventsOf (modelLoaderRun (ρ := Nat) cudaOkEnv cudaNoAudioCfg))).head? =
       some 0 ∧
     (progressValues
         (eventsOf (modelLoaderRun (ρ := Nat) cudaOkEnv cudaNoAudioCfg))).getLast? =
       some 100 ∧
     ∃ pre, eventsOf (modelLoaderRun (ρ := Nat) cudaOkEnv cudaNoAudioCfg) =
         pre ++ [Event.finished] ∧ Event.finished ∉ pre) ∧
    (List.Pairwise (· ≤ ·)
        (progressValues (eventsOf (transcriptionRun (μ := Nat) lateProgressEnv cpuAudioCfg).1)) ∧
     (progressValues
         (eventsOf (transcriptionRun (μ := Nat) lateProgressEnv cpuAudioCfg).1)).head? =
       some 0 ∧
     (progressValues
         (eventsOf (transcriptionRun (μ := Nat) lateProgressEnv cpuAudioCfg).1)).getLast? =
       some 100 ∧
     ∃ pre, eventsOf (transcriptionRun (μ := Nat) lateProgressEnv cpuAudioCfg).1 =
         pre ++ [Event.finished] ∧ Event.finished ∉ pre) :=
  progress_monotone_of_monotone_callbacks Nat Nat cudaOkEnv lateProgressEnv
    cudaNoAudioCfg cpuAudioCfg 0 5
    ⟨rfl, rfl, fun _ => rfl⟩ rfl (by decide) (by decide)
    ⟨rfl, rfl, fun h => nomatch h⟩ (by decide) rfl (by decide) (by decide)

/-- C9: the missing-input check tests Python truthiness, not presence:
a Config whose audio_file is the empty string produces exactly the same
run as one whose audio_file is absent, and in a benign environment the
single emitted event is Error("No audio file specified!"). -/
theorem empty_audio_file_behaves_as_none (μ ρ : Type) (env : WorkerEnv ρ)
    (d : String) (i : Int) :
    transcriptionRun (μ := μ) env ⟨d, i, some ""⟩ =
      transcriptionRun (μ := μ) env ⟨d, i, none⟩ ∧
    (prologueOk env →
      eventsOf (transcriptionRun (μ := μ) env ⟨d, i, some ""⟩).1 =
        [Event.error "No audio file specified!"]) := by
  constructor
  · have hbody : ∀ (env' : WorkerEnv ρ) (lead : List (Step μ ρ)),
        transcriptionBody env' ⟨d, i, some ""⟩ lead =
          transcriptionBody env' ⟨d, i, none⟩ lead := by
      intro env' lead
      rw [transcriptionBody_falsy env' ⟨d, i, some ""⟩ lead rfl,
        transcriptionBody_falsy env' ⟨d, i, none⟩ lead rfl]
    obtain ⟨ca, imf, bcf, devf, cbs, outcome⟩ := env
    cases imf with
    | some m => rfl
    | none =>
      cases bcf with
      | some m => rfl
      | none =>
        cases ca with
        | true =>
          cases devf with
          | some m => rfl
          | none =>
            rw [transcriptionRun_ok ⟨true, none, none, none, cbs, outcome⟩
                ⟨d, i, some ""⟩ ⟨rfl, rfl, fun _ => rfl⟩,
              transcriptionRun_ok ⟨true, none, none, none, cbs, outcome⟩
                ⟨d, i, none⟩ ⟨rfl, rfl, fun _ => rfl⟩,
              show deviceId ⟨d, i, some ""⟩ = deviceId ⟨d, i, none⟩ from rfl]
            exact hbody _ _
        | false =>
          rw [transcriptionRun_ok ⟨false, none, none, devf, cbs, outcome⟩
              ⟨d, i, some ""⟩ ⟨rfl, rfl, fun h => nomatch h⟩,
            transcriptionRun_ok ⟨false, none, none, devf, cbs, outcome⟩
              ⟨d, i, none⟩ ⟨rfl, rfl, fun h => nomatch h⟩,
            show deviceId ⟨d, i, some ""⟩ = deviceId ⟨d, i, none⟩ from rfl]
          exact hbody _ _
  · intro hp
    exact eventsOf_transcriptionRun_falsy env ⟨d, i, some ""⟩ hp rfl

/-- C9 witness: the empty-string config behaves as the absent-file
config at a concrete CUDA environment. -/
theorem empty_audio_file_behaves_as_none_witness :
    (transcriptionRun (μ := Nat) cudaOkEnv ⟨"cuda", 0, some ""⟩ =
      transcriptionRun (μ := Nat) cudaOkEnv ⟨"cuda", 0, none⟩) ∧
    eventsOf (transcriptionRun (μ := Nat) cudaOkEnv ⟨"cuda", 0, some ""⟩).1 =
      [Event.error "No audio file specified!"] :=
  ⟨(empty_audio_file_behaves_as_none Nat Nat cudaOkEnv "cuda" 0).1,
   (empty_audio_file_behaves_as_none Nat Nat cudaOkEnv "cuda" 0).2
     ⟨rfl, rfl, fun _ => rfl⟩⟩
